import Mathlib

/-!
Verification of the PyCut Pro timeline/clip data model and export pipeline
(`PyCut.py`).  Clips are Python dictionaries in the source; they are modelled
here as a record whose optional fields are `Option`-valued: `none` stands for
an absent dictionary key, and the source's `clip.get(key, default)` reads
become `Option.getD`.  Times and other numeric clip fields are Python floats
in the source and are modelled as rationals; Python's `str(...)` rendering of
numbers is abstracted by `toString`.  Python `list.append`/`list.pop` operate
at the end of a list; the undo/redo stacks are modelled with their top at the
head of the list, which is the same stack discipline.
-/

/-- One timeline clip (the source's clip dictionary, `PyCut.py` throughout).
Fields that a given clip kind's constructor does not write are `none`. -/
structure Clip where
  id : Int
  type : String
  track : Int
  start : ℚ
  duration : ℚ
  name : String
  path : Option String := none
  start_trim : Option ℚ := none
  volume : Option ℚ := none
  text : Option String := none
  x : Option ℚ := none
  y : Option ℚ := none
  fade_in : Option ℚ := none
  fade_out : Option ℚ := none
  scale : Option ℚ := none
  rotation : Option ℚ := none
  opacity : Option ℚ := none
  bw : Option Bool := none
  blur : Option ℚ := none
  chroma_key : Option Bool := none
  chroma_color : Option String := none
  chroma_similarity : Option ℚ := none
  chroma_blend : Option ℚ := none
  lut : Option String := none
  speed : Option ℚ := none
deriving DecidableEq, Repr

/-- An undo/redo snapshot: the dictionary `{'clips': ..., 'next_clip_id': ...}`
pushed in `VideoEditor.undo`/`VideoEditor.redo`. -/
structure Snapshot where
  clips : List Clip
  next_clip_id : Int
deriving DecidableEq, Repr

/-- Global project settings (`VideoEditor.__init__`, `PyCut.py:1307`). -/
structure ProjectSettings where
  fps : ℚ
  resolution : Int × Int
  background : String
deriving DecidableEq, Repr

/-- `{"fps": DEFAULT_FPS, "resolution": DEFAULT_RESOLUTION, "background": "#000000"}`. -/
def defaultSettings : ProjectSettings :=
  { fps := 30, resolution := (1920, 1080), background := "#000000" }

/-- The mutable editor/project state (`VideoEditor.__init__`, `PyCut.py:1304-1316`,
plus the timeline playhead `timeline.current_time` read by the clip operations). -/
structure EditorState where
  project_name : String
  project_path : Option String
  project_settings : ProjectSettings
  clips : List Clip
  next_clip_id : Int
  undo_stack : List Snapshot
  redo_stack : List Snapshot
  selected_clip_id : Int
  current_time : ℚ
deriving DecidableEq, Repr

/-- Fresh editor state (`VideoEditor.__init__`). -/
def initialState : EditorState :=
  { project_name := "Untitled Project"
    project_path := none
    project_settings := defaultSettings
    clips := []
    next_clip_id := 1
    undo_stack := []
    redo_stack := []
    selected_clip_id := -1
    current_time := 0 }

/-- `VideoEditor.add_video_clip` (`PyCut.py:1998-2040`): the probed source
duration is a parameter (the cv2 probe is an external call); `os.path.basename`
is abstracted by using the given path string as the display name. -/
def add_video_clip (e : EditorState) (filePath : String) (track : Int) (probedDuration : ℚ) :
    EditorState :=
  let clip : Clip :=
    { id := e.next_clip_id, type := "video", track := track, start := e.current_time,
      duration := probedDuration, name := filePath, path := some filePath,
      start_trim := some 0 }
  { e with clips := e.clips ++ [clip], next_clip_id := e.next_clip_id + 1 }

/-- `VideoEditor.add_audio_clip` (`PyCut.py:2042-2079`): duration comes from the
external ffprobe call; note the audio clip dictionary has no `start_trim` key. -/
def add_audio_clip (e : EditorState) (filePath : String) (track : Int) (probedDuration : ℚ) :
    EditorState :=
  let clip : Clip :=
    { id := e.next_clip_id, type := "audio", track := track, start := e.current_time,
      duration := probedDuration, name := filePath, path := some filePath,
      volume := some 1 }
  { e with clips := e.clips ++ [clip], next_clip_id := e.next_clip_id + 1 }

/-- `VideoEditor.add_image_clip` (`PyCut.py:2081-2104`): fixed default duration 5. -/
def add_image_clip (e : EditorState) (filePath : String) (track : Int) : EditorState :=
  let clip : Clip :=
    { id := e.next_clip_id, type := "image", track := track, start := e.current_time,
      duration := 5, name := filePath, path := some filePath }
  { e with clips := e.clips ++ [clip], next_clip_id := e.next_clip_id + 1 }

/-- `VideoEditor.add_text` (`PyCut.py:1905-1942`); the dialog values other than
text and duration (font, colors, shadow/outline, animation) do not take part in
any timeline-model claim and are left at their absent default here. -/
def add_text (e : EditorState) (textValue : String) (track : Int) (duration : ℚ) :
    EditorState :=
  let clip : Clip :=
    { id := e.next_clip_id, type := "text", track := track, start := e.current_time,
      duration := duration, name := "Text: " ++ (textValue.take 20), text := some textValue }
  { e with clips := e.clips ++ [clip], next_clip_id := e.next_clip_id + 1 }

/-- `VideoEditor.add_sticker` (`PyCut.py:1944-1975`). -/
def add_sticker (e : EditorState) (filePath : String) (track : Int) (duration xv yv sc rot op : ℚ) :
    EditorState :=
  let clip : Clip :=
    { id := e.next_clip_id, type := "sticker", track := track, start := e.current_time,
      duration := duration, name := "Sticker: " ++ filePath, path := some filePath,
      x := some xv, y := some yv, scale := some sc, rotation := some rot, opacity := some op }
  { e with clips := e.clips ++ [clip], next_clip_id := e.next_clip_id + 1 }

/-- `VideoEditor.add_transition` (`PyCut.py:1977-1996`): fixed duration 2. -/
def add_transition (e : EditorState) (track : Int) : EditorState :=
  let clip : Clip :=
    { id := e.next_clip_id, type := "transition", track := track, start := e.current_time,
      duration := 2, name := "Fade Transition" }
  { e with clips := e.clips ++ [clip], next_clip_id := e.next_clip_id + 1 }

/-- Update the first clip satisfying `p` (the source's
`for clip in self.clips: if clip['id'] == ...: mutate; break` pattern). -/
def updateFirst (p : Clip → Bool) (f : Clip → Clip) : List Clip → List Clip
  | [] => []
  | c :: rest => if p c then f c :: rest else c :: updateFirst p f rest

/-- Remove the first clip with the given id, `none` when no clip matches
(`VideoEditor.delete_selected` loop, `PyCut.py:2227-2232`). -/
def removeFirst (sel : Int) : List Clip → Option (List Clip)
  | [] => none
  | c :: rest => if c.id = sel then some rest else (removeFirst sel rest).map (c :: ·)

/-- `VideoEditor.select_clip` (`PyCut.py:2139-2152`); the effect-panel updates
are UI-only. -/
def select_clip (e : EditorState) (clipId : Int) : EditorState :=
  { e with selected_clip_id := clipId }

/-- The playhead move (`timeline.current_time` is set by the timeline widget
and the video player; the clip operations read it). -/
def set_playhead (e : EditorState) (t : ℚ) : EditorState :=
  { e with current_time := t }

/-- `VideoEditor.apply_effects_to_selected` (`PyCut.py:2154-2170`). -/
def apply_effects_to_selected (e : EditorState) (fi fo sc rot op bl : ℚ) (bwv ck : Bool) :
    EditorState :=
  if e.selected_clip_id = -1 then e
  else
    let upd : Clip → Clip := fun c =>
      { c with fade_in := some fi, fade_out := some fo, scale := some sc,
               rotation := some rot, opacity := some op, bw := some bwv,
               blur := some bl, chroma_key := some ck }
    { e with clips := updateFirst (fun c => c.id = e.selected_clip_id) upd e.clips }

/-- `VideoEditor.apply_chroma_key` (`PyCut.py:2172-2187`). -/
def apply_chroma_key (e : EditorState) (color : String) (sim blend : ℚ) : EditorState :=
  if e.selected_clip_id = -1 then e
  else
    let upd : Clip → Clip := fun c =>
      { c with chroma_key := some true, chroma_color := some color,
               chroma_similarity := some sim, chroma_blend := some blend }
    { e with clips := updateFirst (fun c => c.id = e.selected_clip_id) upd e.clips }

/-- `VideoEditor.apply_lut` (`PyCut.py:2189-2202`). -/
def apply_lut (e : EditorState) (lutPath : String) : EditorState :=
  if e.selected_clip_id = -1 then e
  else
    let upd : Clip → Clip := fun c => { c with lut := some lutPath }
    { e with clips := updateFirst (fun c => c.id = e.selected_clip_id) upd e.clips }

/-- `VideoEditor.adjust_speed` (`PyCut.py:2204-2216`). -/
def adjust_speed (e : EditorState) (s : ℚ) : EditorState :=
  if e.selected_clip_id = -1 then e
  else
    let upd : Clip → Clip := fun c => { c with speed := some s }
    { e with clips := updateFirst (fun c => c.id = e.selected_clip_id) upd e.clips }

/-- `VideoEditor.delete_selected` (`PyCut.py:2218-2232`). -/
def delete_selected (e : EditorState) : EditorState :=
  if e.selected_clip_id = -1 then e
  else
    match removeFirst e.selected_clip_id e.clips with
    | none => e
    | some l => { e with clips := l, selected_clip_id := -1 }

/-- Outcome of `split_selected_clip` as surfaced to the user: the source
signals failure through a status-bar message and an early return. -/
inductive SplitOutcome where
  | ok (newId : Int)
  | err (msg : String)
  | noTarget
deriving DecidableEq, Repr

/-- `true` exactly on the message-and-return failure paths. -/
def SplitOutcome.isErr : SplitOutcome → Bool
  | .ok _ => false
  | .err _ => true
  | .noTarget => false

/-- Result of scanning the clip list for the selected clip inside
`split_selected_clip`. -/
inductive FindRes where
  | notFound
  | errKind
  | errBounds
  | okNew (c : Clip)
deriving DecidableEq, Repr

/-- The `for clip in self.clips` loop body of `VideoEditor.split_selected_clip`
(`PyCut.py:2239-2283`): find the first clip whose id matches, check its kind and
the playhead position, truncate it and build the second half.  Returns the
processed list (original clip truncated in place on success) and the outcome. -/
def splitFind (sel : Int) (t : ℚ) (nid : Int) : List Clip → List Clip × FindRes
  | [] => ([], .notFound)
  | c :: rest =>
    if c.id = sel then
      if ¬ (c.type = "video" ∨ c.type = "audio") then (c :: rest, .errKind)
      else if t - c.start ≤ 0 ∨ c.duration ≤ t - c.start then (c :: rest, .errBounds)
      else
        let newC : Clip :=
          { c with id := nid, start := t, duration := c.duration - (t - c.start),
                   start_trim := some (c.start_trim.getD 0 + (t - c.start)) }
        ({ c with duration := t - c.start } :: rest, .okNew newC)
    else
      let p := splitFind sel t nid rest
      (c :: p.1, p.2)

/-- `VideoEditor.split_selected_clip` (`PyCut.py:2234-2283`): the new clip is a
copy of the found clip (`clip.copy()`) with fresh id, `start = playhead`,
`duration = old_duration - elapsed`, `start_trim = old_trim + elapsed`; it is
appended at the end of the clip list and `next_clip_id` is incremented. -/
def split_selected_clip (e : EditorState) : SplitOutcome × EditorState :=
  if e.selected_clip_id = -1 then (.err "Select a clip first", e)
  else
    let p := splitFind e.selected_clip_id e.current_time e.next_clip_id e.clips
    match p.2 with
    | .notFound => (.noTarget, e)
    | .errKind => (.err "Only video and audio clips can be split", e)
    | .errBounds => (.err "Playhead must be within the clip", e)
    | .okNew newC =>
      (.ok newC.id,
       { e with clips := p.1 ++ [newC], next_clip_id := e.next_clip_id + 1 })

/-- `VideoEditor.undo` (`PyCut.py:2285-2295`): pop the undo stack, push the
current `{clips, next_clip_id}` onto redo, restore the popped snapshot; no-op
when the undo stack is empty. -/
def undo (e : EditorState) : EditorState :=
  match e.undo_stack with
  | [] => e
  | s :: rest =>
    { e with undo_stack := rest,
             redo_stack := ⟨e.clips, e.next_clip_id⟩ :: e.redo_stack,
             clips := s.clips, next_clip_id := s.next_clip_id }

/-- `VideoEditor.redo` (`PyCut.py:2297-2307`): symmetric to `undo`. -/
def redo (e : EditorState) : EditorState :=
  match e.redo_stack with
  | [] => e
  | s :: rest =>
    { e with redo_stack := rest,
             undo_stack := ⟨e.clips, e.next_clip_id⟩ :: e.undo_stack,
             clips := s.clips, next_clip_id := s.next_clip_id }

/-- `VideoEditor.new_project` (`PyCut.py:1770-1779`); note it does not touch
the undo/redo stacks either. -/
def new_project (e : EditorState) : EditorState :=
  { e with project_name := "Untitled Project", project_path := none,
           clips := [], next_clip_id := 1 }

/-- The persisted project JSON object written by `do_save_project`
(`PyCut.py:1845-1862`) and read by `open_project`; `Option` fields model the
`data.get(key, default)` reads on load. -/
structure ProjectFile where
  name : Option String
  settings : Option ProjectSettings
  clips : Option (List Clip)
  next_clip_id : Option Int
deriving DecidableEq, Repr

/-- `VideoEditor.do_save_project` (`PyCut.py:1845-1862`): the saved object
carries the full current clip list and id counter. -/
def do_save_project (e : EditorState) : ProjectFile :=
  { name := some e.project_name, settings := some e.project_settings,
    clips := some e.clips, next_clip_id := some e.next_clip_id }

/-- The state update of `VideoEditor.open_project` (`PyCut.py:1781-1826`) once
a file has been parsed: replay the stored clip list and id counter with the
source's defaults; the undo/redo stacks, selection and playhead are not
touched by the source. -/
def open_project_apply (e : EditorState) (filePath : String) (f : ProjectFile) :
    EditorState :=
  { e with project_name := f.name.getD "Untitled Project",
           project_path := some filePath,
           project_settings := f.settings.getD defaultSettings,
           clips := f.clips.getD [],
           next_clip_id := f.next_clip_id.getD 1 }

/-- The editor operations reachable from the UI that touch the modelled state. -/
inductive EditOp where
  | addVideo (path : String) (track : Int) (probedDuration : ℚ)
  | addAudio (path : String) (track : Int) (probedDuration : ℚ)
  | addImage (path : String) (track : Int)
  | addTextOp (text : String) (track : Int) (duration : ℚ)
  | addStickerOp (path : String) (track : Int) (duration xv yv sc rot op : ℚ)
  | addTransitionOp (track : Int)
  | selectOp (id : Int)
  | playheadOp (t : ℚ)
  | effectsOp (fi fo sc rot op bl : ℚ) (bwv ck : Bool)
  | chromaOp (color : String) (sim blend : ℚ)
  | lutOp (p : String)
  | speedOp (s : ℚ)
  | deleteOp
  | splitOp
  | undoOp
  | redoOp
  | newProjectOp
  | openProjectOp (path : String) (f : ProjectFile)
  | saveProjectOp

/-- One UI-driven state transition. `saveProjectOp` only performs file output
and window-title updates in the source, so it leaves the modelled state as is. -/
def step (op : EditOp) (e : EditorState) : EditorState :=
  match op with
  | .addVideo p tr d => add_video_clip e p tr d
  | .addAudio p tr d => add_audio_clip e p tr d
  | .addImage p tr => add_image_clip e p tr
  | .addTextOp t tr d => add_text e t tr d
  | .addStickerOp p tr d xv yv sc rot op => add_sticker e p tr d xv yv sc rot op
  | .addTransitionOp tr => add_transition e tr
  | .selectOp i => select_clip e i
  | .playheadOp t => set_playhead e t
  | .effectsOp fi fo sc rot op bl bwv ck => apply_effects_to_selected e fi fo sc rot op bl bwv ck
  | .chromaOp color sim blend => apply_chroma_key e color sim blend
  | .lutOp p => apply_lut e p
  | .speedOp s => adjust_speed e s
  | .deleteOp => delete_selected e
  | .splitOp => (split_selected_clip e).2
  | .undoOp => undo e
  | .redoOp => redo e
  | .newProjectOp => new_project e
  | .openProjectOp p f => open_project_apply e p f
  | .saveProjectOp => e

/-- Run a sequence of editor operations from the fresh editor state. -/
def applyOps (l : List EditOp) : EditorState :=
  l.foldl (fun e op => step op e) initialState

/-!
## Export worker (`VideoExportWorker`, `PyCut.py:39-410`)

Each external-engine invocation (one `subprocess.run` inside a
`process_*_clip` helper, the concatenation, the mix, the combine) and the
final `shutil.copy` is one `Stage`.  Whether an invocation succeeds is an
environment fact, supplied as an oracle `stageOk : Stage → Bool`; the first
failing invocation raises, which the `try/except` of `export` turns into the
error path.  The asynchronous cancellation flag `self.canceled` is monotone
(it is only ever set to `True`), so it is modelled by the index of the first
loop check that observes it: `cancelFrom = some k` means the flag is up from
the `k`-th check on, `none` means it is never set.  `tempfile.mkdtemp` and the
file-list write are assumed to succeed.  `int((i / total) * 80)` on
non-negative numbers is the floor `(i * 80) / total`.
-/

/-- One unit of external work issued by `VideoExportWorker.export`. -/
inductive Stage where
  | render (i : Nat) (kind : String)
  | renderAudio (i : Nat)
  | concatStage
  | mixStage
  | combineStage
  | copyStage
deriving DecidableEq, Repr

/-- Observable export events in emission order: progress signals, issued
stages, removal of the scratch directory, the `finished` signal, the `error`
signal. -/
inductive EV where
  | prog (n : Nat)
  | stage (s : Stage)
  | rmTemp
  | finishedEv
  | errorEv
deriving DecidableEq, Repr

/-- Accumulated run data: the event trace, the `intermediate_files` list
(`clip_i.mp4` recorded by clip index) and the `audio_files` list
(`audio_i.wav` recorded by clip index). -/
structure ExpAcc where
  events : List EV
  inter : List Nat
  audio : List Nat
deriving DecidableEq, Repr

/-- Does the `i`-th read of `self.canceled` observe the flag as set? -/
def canceledAt (cancelFrom : Option Nat) (i : Nat) : Bool :=
  match cancelFrom with
  | none => false
  | some k => decide (k ≤ i)

/-- The non-audio clip kinds dispatched to a render helper in the first loop
of `export` (`PyCut.py:66-78`). -/
def visualKinds : List String := ["video", "image", "text", "transition", "sticker"]

/-!
## Per-clip command construction (`process_video_clip`, `process_image_clip`,
`process_audio_clip`, the mix and the combine commands)

`subprocess.run` receives a Python list that may contain `None` (the
`filter_str` slot); an argument list slot is therefore `Option String`, and
`subprocess.run` raises a `TypeError` when any slot is `None`.
-/

/-- Numeric rendering for filter strings (abstraction of Python's
f-string formatting of numbers). -/
def qstr (q : ℚ) : String := toString q

/-- A single-quote character, as embedded in the `lut3d` filter string. -/
def squote : String := String.mk [Char.ofNat 39]

/-- Value of one hexadecimal digit (used by `hex_to_rgb`). -/
def hexDigitVal (c : Char) : Nat :=
  if 48 ≤ c.toNat ∧ c.toNat ≤ 57 then c.toNat - 48
  else if 97 ≤ c.toNat ∧ c.toNat ≤ 102 then c.toNat - 87
  else if 65 ≤ c.toNat ∧ c.toNat ≤ 70 then c.toNat - 55
  else 0

/-- `VideoExportWorker.hex_to_rgb` (`PyCut.py:405-407`): strip the leading
`#` and read three two-digit components. -/
def hex_to_rgb (s : String) : Nat × Nat × Nat :=
  match (s.dropWhile (· = Char.ofNat 35)).toList with
  | r1 :: r2 :: g1 :: g2 :: b1 :: b2 :: _ =>
    (hexDigitVal r1 * 16 + hexDigitVal r2,
     hexDigitVal g1 * 16 + hexDigitVal g2,
     hexDigitVal b1 * 16 + hexDigitVal b2)
  | _ => (0, 0, 0)

/-- The chroma-key filter string (`PyCut.py:172-177`). -/
def chromaFilter (color : String) (sim blend : ℚ) : String :=
  let rgb := hex_to_rgb color
  "chromakey=color=" ++ toString rgb.1 ++ ":" ++ toString rgb.2.1 ++ ":" ++
    toString rgb.2.2 ++ ":similarity=" ++ qstr sim ++ ":blend=" ++ qstr blend

/-- The ordered filter list built by `process_video_clip` (`PyCut.py:154-183`). -/
def videoFilters (c : Clip) : List String :=
  let start_time := c.start_trim.getD 0
  let end_time := start_time + c.duration
  (if c.fade_in.getD 0 > 0 then
      ["fade=t=in:st=" ++ qstr start_time ++ ":d=" ++ qstr (c.fade_in.getD 0)] else [])
  ++ (if c.fade_out.getD 0 > 0 then
      ["fade=t=out:st=" ++ qstr (end_time - c.fade_out.getD 0) ++ ":d=" ++
        qstr (c.fade_out.getD 0)] else [])
  ++ (if c.scale.getD 1 ≠ 1 then ["scale=iw*" ++ qstr (c.scale.getD 1) ++ ":-1"] else [])
  ++ (if c.rotation.getD 0 ≠ 0 then ["rotate=" ++ qstr (c.rotation.getD 0) ++ "*PI/180"] else [])
  ++ (if c.opacity.getD 1 < 1 then ["colorchannelmixer=aa=" ++ qstr (c.opacity.getD 1)] else [])
  ++ (if c.bw.getD false then ["hue=s=0"] else [])
  ++ (if c.blur.getD 0 > 0 then ["boxblur=" ++ qstr (c.blur.getD 0)] else [])
  ++ (if c.chroma_key.getD false then
      [chromaFilter (c.chroma_color.getD "#00FF00") (c.chroma_similarity.getD (1/10))
        (c.chroma_blend.getD (1/10))] else [])
  ++ (if c.lut.getD "" ≠ "" then
      ["lut3d=file=" ++ squote ++ c.lut.getD "" ++ squote] else [])
  ++ (if c.speed.getD 1 ≠ 1 then ["setpts=" ++ qstr (1 / c.speed.getD 1) ++ "*PTS"] else [])

/-- The argument list of `process_video_clip`'s ffmpeg call
(`PyCut.py:185-200`); `filter_str` is `None` when no effect produced a
filter, and the effective duration is rescaled when a speed is set. -/
def buildVideoCmd (c : Clip) (outputPath : String) : List (Option String) :=
  let start_time := c.start_trim.getD 0
  let filters := videoFilters c
  let filter_str : Option String :=
    if filters = [] then none else some (String.intercalate "," filters)
  let duration := if c.speed.getD 1 ≠ 1 then c.duration / c.speed.getD 1 else c.duration
  if c.speed.getD 1 ≠ 1 then
    [some "ffmpeg", some "-y", some "-ss", some (qstr start_time), some "-i",
     some (c.path.getD ""), some "-t", some (qstr duration), some "-vf", filter_str,
     some "-filter:a", some ("atempo=" ++ qstr (c.speed.getD 1)),
     some "-c:v", some "libx264", some "-preset", some "fast", some "-crf", some "23",
     some outputPath]
  else
    [some "ffmpeg", some "-y", some "-ss", some (qstr start_time), some "-i",
     some (c.path.getD ""), some "-t", some (qstr duration), some "-vf", filter_str,
     some "-c:v", some "libx264", some "-preset", some "fast", some "-crf", some "23",
     some outputPath]

/-- `subprocess.run` on an argument list containing `None` raises `TypeError`
before any process starts; with all slots present the call runs. -/
def process_video_clip (c : Clip) (outputPath : String) : Except String Unit :=
  if (buildVideoCmd c outputPath).all Option.isSome then .ok ()
  else .error "TypeError: argument list contains None"

/-- The ordered filter list built by `process_image_clip` (`PyCut.py:205-232`):
as for video but fade-in starts at 0, fade-out is relative to the clip
duration, there is no speed retiming, and the lut filter uses a colon. -/
def imageFilters (c : Clip) : List String :=
  (if c.fade_in.getD 0 > 0 then
      ["fade=t=in:st=0:d=" ++ qstr (c.fade_in.getD 0)] else [])
  ++ (if c.fade_out.getD 0 > 0 then
      ["fade=t=out:st=" ++ qstr (c.duration - c.fade_out.getD 0) ++ ":d=" ++
        qstr (c.fade_out.getD 0)] else [])
  ++ (if c.scale.getD 1 ≠ 1 then ["scale=iw*" ++ qstr (c.scale.getD 1) ++ ":-1"] else [])
  ++ (if c.rotation.getD 0 ≠ 0 then ["rotate=" ++ qstr (c.rotation.getD 0) ++ "*PI/180"] else [])
  ++ (if c.opacity.getD 1 < 1 then ["colorchannelmixer=aa=" ++ qstr (c.opacity.getD 1)] else [])
  ++ (if c.bw.getD false then ["hue=s=0"] else [])
  ++ (if c.blur.getD 0 > 0 then ["boxblur=" ++ qstr (c.blur.getD 0)] else [])
  ++ (if c.chroma_key.getD false then
      [chromaFilter (c.chroma_color.getD "#00FF00") (c.chroma_similarity.getD (1/10))
        (c.chroma_blend.getD (1/10))] else [])
  ++ (if c.lut.getD "" ≠ "" then
      ["lut3d:file=" ++ squote ++ c.lut.getD "" ++ squote] else [])

/-- The argument list of `process_image_clip`'s ffmpeg call (`PyCut.py:236-240`). -/
def buildImageCmd (c : Clip) (outputPath : String) : List (Option String) :=
  let filters := imageFilters c
  let filter_str : Option String :=
    if filters = [] then none else some (String.intercalate "," filters)
  [some "ffmpeg", some "-y", some "-loop", some "1", some "-i", some (c.path.getD ""),
   some "-t", some (qstr c.duration), some "-vf", filter_str,
   some "-c:v", some "libx264", some "-pix_fmt", some "yuv420p",
   some "-preset", some "fast", some "-crf", some "23", some outputPath]

/-- `process_image_clip` (`PyCut.py:204-241`) viewed through `subprocess.run`. -/
def process_image_clip (c : Clip) (outputPath : String) : Except String Unit :=
  if (buildImageCmd c outputPath).all Option.isSome then .ok ()
  else .error "TypeError: argument list contains None"

/-- The argument list of `process_audio_clip`'s ffmpeg call (`PyCut.py:398-402`). -/
def buildAudioCmd (c : Clip) (outputPath : String) : List String :=
  ["ffmpeg", "-y", "-ss", qstr (c.start_trim.getD 0), "-i", c.path.getD "",
   "-t", qstr c.duration, "-af", "volume=" ++ qstr (c.volume.getD 1), outputPath]

/-- The stream labels written into `filter_complex` by the mix loop of
`export` (`PyCut.py:111-113`): label `[j+1:a]` for the `j`-th audio file. -/
def mixStreamLabels (m : Nat) : List String :=
  (List.range m).map (fun j => "[" ++ toString (j + 1) ++ ":a]")

/-- The stream indices those labels refer to. -/
def mixStreamRefs (m : Nat) : List Nat := (List.range m).map (· + 1)

/-- The complete `filter_complex` expression of the mix command
(`PyCut.py:110-115`). -/
def mix_filter_complex (m : Nat) : String :=
  String.join (mixStreamLabels m) ++ "amix=inputs=" ++ toString m ++
    ":duration=longest[a]"

/-- The mix command (`PyCut.py:118-123`): its only inputs are the `m` trimmed
audio artifacts, so its input stream indices are `0 .. m-1`. -/
def mix_cmd (audioFiles : List String) (mixedOut : String) : List String :=
  ["ffmpeg", "-y"] ++ (audioFiles.map (fun f => ["-i", f])).flatten ++
    ["-filter_complex", mix_filter_complex audioFiles.length, "-map", "[a]", mixedOut]

/-- The combine command (`PyCut.py:127-132`): mux the concatenated video with
the mixed audio, truncated by `-shortest`. -/
def combine_cmd (concatPath mixedAudio finalOutput : String) : List String :=
  ["ffmpeg", "-y", "-i", concatPath, "-i", mixedAudio,
   "-c:v", "libx264", "-c:a", "aac", "-b:a", "192k",
   "-map", "0:v:0", "-map", "1:a:0", "-shortest", finalOutput]

/-- Whether the render helper for this clip kind reaches `subprocess.run`
without raising: for `video`/`image` this is the deterministic `TypeError`
check of `process_video_clip`/`process_image_clip` — the built argument list
must contain no `None` slot (it holds one exactly when the filter list is
empty); the text/transition/sticker helpers build plain string lists, so they
always reach their invocations. -/
def renderCmdOk (c : Clip) (outputPath : String) : Bool :=
  if c.type = "video" then (buildVideoCmd c outputPath).all Option.isSome
  else if c.type = "image" then (buildImageCmd c outputPath).all Option.isSome
  else true

/-- First loop of `export` (`PyCut.py:59-81`): check cancellation, emit
progress, render the clip (audio clips are skipped by `continue`; a clip of
unknown kind matches no `elif` and is not rendered), then record the
intermediate artifact for every non-audio clip.  A render whose argument
list contains `None` raises `TypeError` before any external invocation (no
stage is issued); a render that reaches its invocation raises exactly when
the environment fails it (`stageOk`).  Either exception unwinds to the
`except` path. -/
def clipPhase (stageOk : Stage → Bool) (cancelFrom : Option Nat) (total : Nat) :
    Nat → List Clip → ExpAcc → Except ExpAcc ExpAcc
  | _, [], acc => .ok acc
  | i, c :: rest, acc =>
    if canceledAt cancelFrom i then .ok acc
    else
      let acc1 : ExpAcc := { acc with events := acc.events ++ [.prog (i * 80 / total)] }
      if c.type = "audio" then
        clipPhase stageOk cancelFrom total (i + 1) rest acc1
      else if visualKinds.contains c.type then
        if renderCmdOk c ("clip_" ++ toString i ++ ".mp4") then
          let acc2 : ExpAcc :=
            { acc1 with events := acc1.events ++ [.stage (.render i c.type)] }
          if stageOk (.render i c.type) then
            clipPhase stageOk cancelFrom total (i + 1) rest
              { acc2 with inter := acc2.inter ++ [i] }
          else .error acc2
        else .error acc1
      else
        clipPhase stageOk cancelFrom total (i + 1) rest
          { acc1 with inter := acc1.inter ++ [i] }

/-- Second loop of `export` (`PyCut.py:84-89`): trim every audio clip; note it
performs no cancellation check. -/
def audioPhase (stageOk : Stage → Bool) :
    Nat → List Clip → ExpAcc → Except ExpAcc ExpAcc
  | _, [], acc => .ok acc
  | i, c :: rest, acc =>
    if c.type = "audio" then
      let acc1 : ExpAcc := { acc with events := acc.events ++ [.stage (.renderAudio i)] }
      if stageOk (.renderAudio i) then
        audioPhase stageOk (i + 1) rest { acc1 with audio := acc1.audio ++ [i] }
      else .error acc1
    else audioPhase stageOk (i + 1) rest acc

/-- Tail of `export` (`PyCut.py:91-136`): concatenate the intermediate
artifacts, then either mix-and-combine (when audio artifacts exist) or copy
the concatenation to the final output. -/
def tailPhase (stageOk : Stage → Bool) (acc : ExpAcc) : Except ExpAcc ExpAcc :=
  let acc1 : ExpAcc := { acc with events := acc.events ++ [.stage .concatStage] }
  if stageOk .concatStage then
    if acc1.audio.isEmpty then
      let acc2 : ExpAcc := { acc1 with events := acc1.events ++ [.stage .copyStage] }
      if stageOk .copyStage then .ok acc2 else .error acc2
    else
      let acc2 : ExpAcc := { acc1 with events := acc1.events ++ [.stage .mixStage] }
      if stageOk .mixStage then
        let acc3 : ExpAcc := { acc2 with events := acc2.events ++ [.stage .combineStage] }
        if stageOk .combineStage then .ok acc3 else .error acc3
      else .error acc2
  else .error acc1

/-- The body of the `try:` block of `export` up to (but excluding) the cleanup. -/
def exportBody (clips : List Clip) (cancelFrom : Option Nat) (stageOk : Stage → Bool) :
    Except ExpAcc ExpAcc :=
  match clipPhase stageOk cancelFrom clips.length 0 clips ⟨[], [], []⟩ with
  | .error a => .error a
  | .ok a =>
    match audioPhase stageOk 0 clips a with
    | .error a2 => .error a2
    | .ok a2 => tailPhase stageOk a2

/-- Result of one export run. -/
structure ExportRun where
  events : List EV
  inter : List Nat
  audio : List Nat
deriving DecidableEq, Repr

/-- The exit paths of `export` (`PyCut.py:138-148`): on normal completion the
scratch directory is removed and then `finished` is emitted unless the
cancellation flag is up (read number `clips.length`, after all loop reads); on
an exception `error` is emitted and then the scratch directory is removed. -/
def finishRun (cancelFrom : Option Nat) (total : Nat) :
    Except ExpAcc ExpAcc → ExportRun
  | .ok a =>
    { events := (a.events ++ [.rmTemp]) ++
        (if canceledAt cancelFrom total then [] else [.finishedEv]),
      inter := a.inter, audio := a.audio }
  | .error a =>
    { events := a.events ++ [.errorEv, .rmTemp], inter := a.inter, audio := a.audio }

/-- `VideoExportWorker.export` (`PyCut.py:51-148`). -/
def worker_export (clips : List Clip) (cancelFrom : Option Nat) (stageOk : Stage → Bool) :
    ExportRun :=
  finishRun cancelFrom clips.length (exportBody clips cancelFrom stageOk)

/-- `VideoEditor.export_project` (`PyCut.py:1868-1879`): with no clips it only
shows a warning; otherwise it hands the live `self.clips` list (unsorted, in
creation order) and the settings to a fresh worker and never writes any
project state back. -/
def export_project (e : EditorState) (cancelFrom : Option Nat) (stageOk : Stage → Bool) :
    EditorState × Option ExportRun :=
  if e.clips.isEmpty then (e, none)
  else (e, some (worker_export e.clips cancelFrom stageOk))

/-- The oracle of an environment where every external invocation succeeds. -/
def allOk : Stage → Bool := fun _ => true

/-- The progress percentages in emission order. -/
def progValues (l : List EV) : List Nat :=
  l.filterMap (fun ev => match ev with | .prog n => some n | _ => none)


/-- The truncated first half produced by a successful split: only the
duration changes. -/
def splitTrunc (c : Clip) (t : ℚ) : Clip := { c with duration := t - c.start }

/-- The second half produced by a successful split: a copy with fresh id,
`start = t`, the remaining duration, and `start_trim` advanced by the
elapsed portion. -/
def splitNew (c : Clip) (t : ℚ) (nid : Int) : Clip :=
  { c with id := nid, start := t, duration := c.duration - (t - c.start),
           start_trim := some (c.start_trim.getD 0 + (t - c.start)) }

/-- A concrete video clip used to exercise the successful split. -/
def cV : Clip :=
  { id := 1, type := "video", track := 0, start := 0, duration := 10,
    name := "v.mp4", path := some "v.mp4", start_trim := some 0 }

/-- Editor state holding `cV`, selected, playhead at 4. -/
def eSplitOk : EditorState :=
  { initialState with clips := [cV], next_clip_id := 2,
                      selected_clip_id := 1, current_time := 4 }

/-- A concrete video clip used to exercise the failing split. -/
def cW : Clip :=
  { id := 1, type := "video", track := 0, start := 0, duration := 10,
    name := "w.mp4", path := some "w.mp4", start_trim := some 0 }

/-- Editor state holding `cW`, selected, playhead at 20 (outside the clip). -/
def eSplitBad : EditorState :=
  { initialState with clips := [cW], next_clip_id := 2,
                      selected_clip_id := 1, current_time := 20 }

/-!
## Effect-free clip rendering (`process_video_clip` / `process_image_clip`)
-/

/-- All shared visual-effect fields absent or at their neutral defaults. -/
def neutralEffects (c : Clip) : Prop :=
  c.fade_in.getD 0 = 0 ∧ c.fade_out.getD 0 = 0 ∧ c.scale.getD 1 = 1 ∧
  c.rotation.getD 0 = 0 ∧ c.opacity.getD 1 = 1 ∧ c.bw.getD false = false ∧
  c.blur.getD 0 = 0 ∧ c.chroma_key.getD false = false ∧ c.lut.getD "" = "" ∧
  c.speed.getD 1 = 1

/-- A concrete effect-free video clip. -/
def cNeutral : Clip :=
  { id := 3, type := "video", track := 0, start := 0, duration := 7,
    name := "n.mp4", path := some "n.mp4", start_trim := some 0 }

/-!
## Concatenation order (first export loop)
-/

/-- The indices of the non-audio clips in clip-list order, starting at `i`. -/
def listOrderNonAudio : Nat → List Clip → List Nat
  | _, [] => []
  | i, c :: rest =>
    if c.type = "audio" then listOrderNonAudio (i + 1) rest
    else i :: listOrderNonAudio (i + 1) rest

/-- A reachable project: one video clip added with the playhead at 5, then a
second one added with the playhead at 0. -/
def c3State : EditorState :=
  applyOps [.playheadOp 5, .addVideo "a.mp4" 0 3,
            .selectOp 1, .effectsOp 1 0 1 0 1 0 false false,
            .playheadOp 0, .addVideo "b.mp4" 0 3,
            .selectOp 2, .effectsOp 1 0 1 0 1 0 false false]

/-- The clip list of `c3State`, written out: two video clips with a
one-second fade-in, the first starting at 5, the second at 0. -/
def c3clips : List Clip :=
  [{ id := 1, type := "video", track := 0, start := 5, duration := 3,
     name := "a.mp4", path := some "a.mp4", start_trim := some 0,
     fade_in := some 1, fade_out := some 0, scale := some 1,
     rotation := some 0, opacity := some 1, bw := some false,
     blur := some 0, chroma_key := some false },
   { id := 2, type := "video", track := 0, start := 0, duration := 3,
     name := "b.mp4", path := some "b.mp4", start_trim := some 0,
     fade_in := some 1, fade_out := some 0, scale := some 1,
     rotation := some 0, opacity := some 1, bw := some false,
     blur := some 0, chroma_key := some false }]

/-- The timeline starts of the clips named by the concatenation file list, in
file-list order. -/
def concatStarts (clips : List Clip) : List ℚ :=
  (worker_export clips none allOk).inter.filterMap
    (fun i => (clips.get? i).map Clip.start)

/-!
## Event-trace shape of an export run (cancellation and progress)
-/

/-- The accumulator at the point the body stopped, successful or not. -/
def resAcc : Except ExpAcc ExpAcc → ExpAcc
  | .ok a => a
  | .error a => a

/-- Two video clips with a fade-in (so their renders build valid commands and
reach ffmpeg); used to run a cancelled export. -/
def c4clips : List Clip :=
  [{ id := 1, type := "video", track := 0, start := 0, duration := 3,
     name := "x.mp4", path := some "x.mp4", start_trim := some 0,
     fade_in := some 1 },
   { id := 2, type := "video", track := 0, start := 3, duration := 3,
     name := "y.mp4", path := some "y.mp4", start_trim := some 0,
     fade_in := some 1 }]

/-- One video clip with a fade-in; a fully successful export. -/
def c6clips : List Clip :=
  [{ id := 1, type := "video", track := 0, start := 0, duration := 5,
     name := "c6.mp4", path := some "c6.mp4", start_trim := some 0,
     fade_in := some 1 }]

/-!
## Reachable-state invariant: the history stacks are never pushed

No mutating clip operation in the source calls any record/push on
`undo_stack`; the only writers are `undo` and `redo` themselves, each of which
requires its source stack to be non-empty.  Hence both stacks are empty in
every reachable editor state.
-/

lemma step_stacks_empty (op : EditOp) (e : EditorState)
    (h1 : e.undo_stack = []) (h2 : e.redo_stack = []) :
    (step op e).undo_stack = [] ∧ (step op e).redo_stack = [] := by
  cases op <;>
    simp only [step, add_video_clip, add_audio_clip, add_image_clip, add_text,
      add_sticker, add_transition, select_clip, set_playhead,
      apply_effects_to_selected, apply_chroma_key, apply_lut, adjust_speed,
      delete_selected, split_selected_clip, undo, redo, new_project,
      open_project_apply, h1, h2] <;>
    (repeat' split) <;>
    refine ⟨?_, ?_⟩ <;>
    trivial

lemma foldl_stacks_empty (l : List EditOp) :
    ∀ e : EditorState, e.undo_stack = [] → e.redo_stack = [] →
      (l.foldl (fun e op => step op e) e).undo_stack = [] ∧
      (l.foldl (fun e op => step op e) e).redo_stack = [] := by
  induction l with
  | nil => intro e h1 h2; exact ⟨h1, h2⟩
  | cons op rest ih =>
    intro e h1 h2
    simp only [List.foldl_cons]
    obtain ⟨g1, g2⟩ := step_stacks_empty op e h1 h2
    exact ih _ g1 g2

lemma applyOps_stacks_empty (l : List EditOp) :
    (applyOps l).undo_stack = [] ∧ (applyOps l).redo_stack = [] :=
  foldl_stacks_empty l initialState rfl rfl

/-- C1: the claim that every mutating clip operation pushes the pre-mutation
snapshot onto the undo stack fails on the code: `add_video_clip` (like every
other mutator) never touches the stacks, so after one add the undo stack is
still empty, `undo()` is a no-op, and the pre-add clip list is not restored. -/
theorem add_then_undo_is_noop :
    (add_video_clip initialState "a.mp4" 0 10).undo_stack = [] ∧
    (add_video_clip initialState "a.mp4" 0 10).redo_stack = [] ∧
    undo (add_video_clip initialState "a.mp4" 0 10) =
      add_video_clip initialState "a.mp4" 0 10 ∧
    (undo (add_video_clip initialState "a.mp4" 0 10)).clips ≠ initialState.clips := by
  refine ⟨rfl, rfl, rfl, ?_⟩
  decide

/-- Each mix-filter stream label is the textual form of its stream index. -/
lemma mixStreamLabels_eq_refs (m : Nat) :
    mixStreamLabels m = (mixStreamRefs m).map (fun r => "[" ++ toString r ++ ":a]") := by
  simp [mixStreamLabels, mixStreamRefs, List.map_map, Function.comp]

/-- C5: the mix command built for `m = 1` audio clips has exactly one input
(stream index 0), yet its filter expression references stream index 1 only:
input 0 is never referenced and the referenced index 1 does not exist, so the
filter does not reference each of the `m` inputs once as claimed.  The
combine command does carry `-shortest`. -/
theorem mix_filter_references_wrong_streams :
    mix_filter_complex 1 = "[1:a]amix=inputs=1:duration=longest[a]" ∧
    (mix_cmd ["audio_0.wav"] "mixed_audio.wav").count "-i" = 1 ∧
    mixStreamRefs 1 = [1] ∧
    (0 : Nat) ∉ mixStreamRefs 1 ∧
    (1 : Nat) ∉ List.range 1 ∧
    "-shortest" ∈ combine_cmd "concat.mp4" "mixed_audio.wav" "out.mp4" :=
  ⟨rfl, by decide, rfl, by decide, by decide, by decide⟩

/-- C7: on every exit path of the export worker — success, internal failure at
any stage, cancellation at any point — the scratch directory is removed, and
`export_project` hands the clip list to the worker without ever writing any
project state back. -/
theorem export_always_cleans_up (e : EditorState) (clips : List Clip)
    (cancelFrom : Option Nat) (stageOk : Stage → Bool) :
    (export_project e cancelFrom stageOk).1 = e ∧
    EV.rmTemp ∈ (worker_export clips cancelFrom stageOk).events := by
  constructor
  · by_cases h : e.clips.isEmpty <;> simp [export_project, h]
  · cases h : exportBody clips cancelFrom stageOk with
    | ok a => simp [worker_export, h, finishRun, List.mem_append]
    | error a => simp [worker_export, h, finishRun]

/-- C9: for every reachable project state, saving and re-opening the project
file restores exactly the same clip list (same clips, all fields equal) and
the same `next_clip_id`, and after the load both history stacks are empty. -/
theorem save_load_roundtrip (l : List EditOp) (fp : String) :
    (open_project_apply (applyOps l) fp (do_save_project (applyOps l))).clips =
        (applyOps l).clips ∧
    (open_project_apply (applyOps l) fp (do_save_project (applyOps l))).next_clip_id =
        (applyOps l).next_clip_id ∧
    (open_project_apply (applyOps l) fp (do_save_project (applyOps l))).undo_stack = [] ∧
    (open_project_apply (applyOps l) fp (do_save_project (applyOps l))).redo_stack = [] := by
  have h := applyOps_stacks_empty l
  simp [open_project_apply, do_save_project, h.1, h.2]

/-!
## Splitting (`split_selected_clip`)
-/

/-- The scan of `split_selected_clip` ignores clips whose id does not match. -/
lemma splitFind_skip (sel : Int) (t : ℚ) (nid : Int) (pre l : List Clip)
    (hpre : ∀ c ∈ pre, c.id ≠ sel) :
    splitFind sel t nid (pre ++ l) =
      (pre ++ (splitFind sel t nid l).1, (splitFind sel t nid l).2) := by
  induction pre with
  | nil => simp [splitFind]
  | cons c rest ih =>
    have hc : c.id ≠ sel := hpre c (by simp)
    have hrest : ∀ c' ∈ rest, c'.id ≠ sel := fun c' h => hpre c' (by simp [h])
    simp [splitFind, hc, ih hrest]

lemma splitFind_found (c : Clip) (post : List Clip) (t : ℚ) (nid : Int)
    (hkind : c.type = "video" ∨ c.type = "audio")
    (hlo : c.start < t) (hhi : t < c.start + c.duration) :
    splitFind c.id t nid (c :: post) =
      (splitTrunc c t :: post, .okNew (splitNew c t nid)) := by
  have hb1 : ¬ (t - c.start ≤ 0) := by linarith
  have hb2 : ¬ (c.duration ≤ t - c.start) := by linarith
  rcases hkind with h | h <;> simp [splitFind, splitTrunc, splitNew, h, hb1, hb2]

/-- C2: splitting a video or audio clip strictly inside its extent succeeds,
truncates the original in place to `t - start` (start and `start_trim`
untouched), appends a fresh-id copy with `start = t`,
`duration = (start + duration) - t` and `start_trim` advanced by the elapsed
portion, and increments `next_clip_id`; the two halves partition the original
duration, so the source interval is split losslessly. -/
theorem split_inside_clip
    (e : EditorState) (pre post : List Clip) (c : Clip) (t : ℚ)
    (hclips : e.clips = pre ++ c :: post)
    (hpre : ∀ c' ∈ pre, c'.id ≠ c.id)
    (hsel : e.selected_clip_id = c.id)
    (hneg : c.id ≠ -1)
    (hkind : c.type = "video" ∨ c.type = "audio")
    (ht : e.current_time = t)
    (hlo : c.start < t)
    (hhi : t < c.start + c.duration) :
    (split_selected_clip e).1 = .ok e.next_clip_id ∧
    (split_selected_clip e).2.clips =
      (pre ++ splitTrunc c t :: post) ++ [splitNew c t e.next_clip_id] ∧
    (split_selected_clip e).2.next_clip_id = e.next_clip_id + 1 ∧
    (splitNew c t e.next_clip_id).id = e.next_clip_id ∧
    (splitTrunc c t).start = c.start ∧
    (splitTrunc c t).start_trim = c.start_trim ∧
    (splitTrunc c t).duration + (splitNew c t e.next_clip_id).duration = c.duration ∧
    (splitNew c t e.next_clip_id).start_trim.getD 0 =
      c.start_trim.getD 0 + (splitTrunc c t).duration := by
  subst ht
  have hne : ¬ e.selected_clip_id = -1 := by rw [hsel]; exact hneg
  have hfind := splitFind_found c post e.current_time e.next_clip_id hkind hlo hhi
  refine ⟨?_, ?_, ?_, rfl, rfl, rfl, by simp only [splitTrunc, splitNew]; ring, by
    simp [splitTrunc, splitNew]⟩ <;>
  · simp [split_selected_clip, hne, hneg, hclips, hsel,
      splitFind_skip _ _ _ _ _ hpre, hfind, splitNew]

/-- C8: with the selected clip present in the clip list, `split_selected_clip`
fails (status message and early return) exactly when the clip's kind is
neither video nor audio or the playhead lies outside the open interval
`(start, start + duration)`, and every such failure leaves the editor state
completely unchanged. -/
theorem split_failure_characterisation
    (e : EditorState) (pre post : List Clip) (c : Clip)
    (hclips : e.clips = pre ++ c :: post)
    (hpre : ∀ c' ∈ pre, c'.id ≠ c.id)
    (hsel : e.selected_clip_id = c.id)
    (hneg : c.id ≠ -1) :
    ((split_selected_clip e).1.isErr = true ↔
      (¬ (c.type = "video" ∨ c.type = "audio") ∨
        e.current_time ≤ c.start ∨ c.start + c.duration ≤ e.current_time)) ∧
    ((split_selected_clip e).1.isErr = true → (split_selected_clip e).2 = e) := by
  have hne : ¬ e.selected_clip_id = -1 := by rw [hsel]; exact hneg
  by_cases hk : c.type = "video" ∨ c.type = "audio"
  · by_cases hout : e.current_time ≤ c.start ∨ c.start + c.duration ≤ e.current_time
    · have hb : e.current_time - c.start ≤ 0 ∨
          c.duration ≤ e.current_time - c.start := by
        rcases hout with h | h
        · exact Or.inl (by linarith)
        · exact Or.inr (by linarith)
      have hfind : splitFind c.id e.current_time e.next_clip_id (c :: post) =
          (c :: post, .errBounds) := by
        rcases hk with h | h <;> rcases hb with hb | hb <;> simp [splitFind, h, hb]
      constructor
      · simp [split_selected_clip, hne, hneg, hclips, hsel,
          splitFind_skip _ _ _ _ _ hpre, hfind, SplitOutcome.isErr, hout]
      · intro _
        simp [split_selected_clip, hne, hneg, hclips, hsel,
          splitFind_skip _ _ _ _ _ hpre, hfind]
    · have hlo : c.start < e.current_time := by
        by_contra h
        exact hout (Or.inl (by linarith))
      have hhi : e.current_time < c.start + c.duration := by
        by_contra h
        exact hout (Or.inr (by linarith))
      have hfind := splitFind_found c post e.current_time e.next_clip_id hk hlo hhi
      constructor
      · simp [split_selected_clip, hne, hneg, hclips, hsel,
          splitFind_skip _ _ _ _ _ hpre, hfind, SplitOutcome.isErr, hk, hout]
      · intro habs
        exfalso
        simp [split_selected_clip, hne, hneg, hclips, hsel,
          splitFind_skip _ _ _ _ _ hpre, hfind, SplitOutcome.isErr] at habs
  · have hfind : splitFind c.id e.current_time e.next_clip_id (c :: post) =
        (c :: post, .errKind) := by
      simp [splitFind, hk]
    constructor
    · simp [split_selected_clip, hne, hneg, hclips, hsel,
        splitFind_skip _ _ _ _ _ hpre, hfind, SplitOutcome.isErr, hk]
    · intro _
      simp [split_selected_clip, hne, hneg, hclips, hsel,
        splitFind_skip _ _ _ _ _ hpre, hfind]

theorem split_inside_clip_witness :
    (split_selected_clip eSplitOk).1 = .ok eSplitOk.next_clip_id ∧
    (split_selected_clip eSplitOk).2.clips =
      ([] ++ splitTrunc cV 4 :: []) ++ [splitNew cV 4 eSplitOk.next_clip_id] ∧
    (split_selected_clip eSplitOk).2.next_clip_id = eSplitOk.next_clip_id + 1 ∧
    (splitNew cV 4 eSplitOk.next_clip_id).id = eSplitOk.next_clip_id ∧
    (splitTrunc cV 4).start = cV.start ∧
    (splitTrunc cV 4).start_trim = cV.start_trim ∧
    (splitTrunc cV 4).duration + (splitNew cV 4 eSplitOk.next_clip_id).duration =
      cV.duration ∧
    (splitNew cV 4 eSplitOk.next_clip_id).start_trim.getD 0 =
      cV.start_trim.getD 0 + (splitTrunc cV 4).duration :=
  split_inside_clip eSplitOk [] [] cV 4 rfl (by simp) rfl (by norm_num [cV])
    (Or.inl rfl) rfl (by norm_num [cV]) (by norm_num [cV])

theorem split_failure_characterisation_witness :
    (((split_selected_clip eSplitBad).1.isErr = true ↔
      (¬ (cW.type = "video" ∨ cW.type = "audio") ∨
        eSplitBad.current_time ≤ cW.start ∨
        cW.start + cW.duration ≤ eSplitBad.current_time)) ∧
    ((split_selected_clip eSplitBad).1.isErr = true →
      (split_selected_clip eSplitBad).2 = eSplitBad)) :=
  split_failure_characterisation eSplitBad [] [] cW rfl (by simp) rfl (by norm_num [cW])

lemma videoFilters_neutral (c : Clip) (h : neutralEffects c) : videoFilters c = [] := by
  obtain ⟨h1, h2, h3, h4, h5, h6, h7, h8, h9, h10⟩ := h
  simp [videoFilters, h1, h2, h3, h4, h5, h6, h7, h8, h9, h10]

lemma imageFilters_neutral (c : Clip) (h : neutralEffects c) : imageFilters c = [] := by
  obtain ⟨h1, h2, h3, h4, h5, h6, h7, h8, h9, _⟩ := h
  simp [imageFilters, h1, h2, h3, h4, h5, h6, h7, h8, h9]

/-- C10: for a clip with every effect field absent or neutral, the built
ffmpeg argument list carries the Python value `None` in the slot right after
`"-vf"` (the empty filter list is turned into `None`, not omitted), so
`subprocess.run` raises and the render of an effect-free video or image clip
always fails instead of producing its intermediate artifact. -/
theorem neutral_clip_render_raises (c : Clip) (outputPath : String)
    (h : neutralEffects c) :
    (buildVideoCmd c outputPath).get? 8 = some (some "-vf") ∧
    (buildVideoCmd c outputPath).get? 9 = some none ∧
    process_video_clip c outputPath = .error "TypeError: argument list contains None" ∧
    (buildImageCmd c outputPath).get? 8 = some (some "-vf") ∧
    (buildImageCmd c outputPath).get? 9 = some none ∧
    process_image_clip c outputPath = .error "TypeError: argument list contains None" := by
  have hv := videoFilters_neutral c h
  have hi := imageFilters_neutral c h
  have hs := h.2.2.2.2.2.2.2.2.2
  refine ⟨?_, ?_, ?_, ?_, ?_, ?_⟩ <;>
    simp [buildVideoCmd, buildImageCmd, process_video_clip, process_image_clip,
      hv, hi, hs]

theorem neutral_clip_render_raises_witness :
    (buildVideoCmd cNeutral "clip_0.mp4").get? 8 = some (some "-vf") ∧
    (buildVideoCmd cNeutral "clip_0.mp4").get? 9 = some none ∧
    process_video_clip cNeutral "clip_0.mp4" =
      .error "TypeError: argument list contains None" ∧
    (buildImageCmd cNeutral "clip_0.mp4").get? 8 = some (some "-vf") ∧
    (buildImageCmd cNeutral "clip_0.mp4").get? 9 = some none ∧
    process_image_clip cNeutral "clip_0.mp4" =
      .error "TypeError: argument list contains None" :=
  neutral_clip_render_raises cNeutral "clip_0.mp4"
    (by refine ⟨rfl, rfl, rfl, rfl, rfl, rfl, rfl, rfl, rfl, rfl⟩)

lemma clipPhase_allOk (total : Nat) :
    ∀ (l : List Clip) (i : Nat) (acc : ExpAcc),
      (∀ c ∈ l, ∀ p, renderCmdOk c p = true) →
      ∃ acc', clipPhase allOk none total i l acc = .ok acc' ∧
        acc'.inter = acc.inter ++ listOrderNonAudio i l ∧
        acc'.audio = acc.audio := by
  intro l
  induction l with
  | nil => exact fun i acc _ => ⟨acc, rfl, by simp [listOrderNonAudio], rfl⟩
  | cons c rest ih =>
    intro i acc hvalid
    have hvc : ∀ p, renderCmdOk c p = true := hvalid c (by simp)
    have hvrest : ∀ c' ∈ rest, ∀ p, renderCmdOk c' p = true :=
      fun c' hc' => hvalid c' (by simp [hc'])
    by_cases ha : c.type = "audio"
    · obtain ⟨acc', h1, h2, h3⟩ :=
        ih (i + 1) { acc with events := acc.events ++ [.prog (i * 80 / total)] } hvrest
      refine ⟨acc', ?_, ?_, h3⟩
      · simp [clipPhase, canceledAt, ha, h1]
      · simp [listOrderNonAudio, ha] at h2 ⊢
        exact h2
    · by_cases hv : c.type ∈ visualKinds
      · obtain ⟨acc', h1, h2, h3⟩ :=
          ih (i + 1)
            { events := acc.events ++ [.prog (i * 80 / total), .stage (.render i c.type)],
              inter := acc.inter ++ [i], audio := acc.audio } hvrest
        refine ⟨acc', ?_, ?_, h3⟩
        · simp [clipPhase, canceledAt, ha, hv, allOk, hvc, h1]
        · simp [listOrderNonAudio, ha] at h2 ⊢
          simp [h2]
      · obtain ⟨acc', h1, h2, h3⟩ :=
          ih (i + 1)
            { events := acc.events ++ [.prog (i * 80 / total)],
              inter := acc.inter ++ [i], audio := acc.audio } hvrest
        refine ⟨acc', ?_, ?_, h3⟩
        · simp [clipPhase, canceledAt, ha, hv, h1]
        · simp [listOrderNonAudio, ha] at h2 ⊢
          simp [h2]

lemma audioPhase_allOk :
    ∀ (l : List Clip) (i : Nat) (acc : ExpAcc),
      ∃ acc', audioPhase allOk i l acc = .ok acc' ∧ acc'.inter = acc.inter := by
  intro l
  induction l with
  | nil => exact fun i acc => ⟨acc, rfl, rfl⟩
  | cons c rest ih =>
    intro i acc
    by_cases ha : c.type = "audio"
    · obtain ⟨acc', h1, h2⟩ :=
        ih (i + 1)
          { events := acc.events ++ [.stage (.renderAudio i)],
            inter := acc.inter, audio := acc.audio ++ [i] }
      exact ⟨acc', by simp [audioPhase, ha, allOk, h1], h2⟩
    · obtain ⟨acc', h1, h2⟩ := ih (i + 1) acc
      exact ⟨acc', by simp [audioPhase, ha, h1], h2⟩

lemma tailPhase_allOk (acc : ExpAcc) :
    ∃ acc', tailPhase allOk acc = .ok acc' ∧ acc'.inter = acc.inter := by
  by_cases h : acc.audio.isEmpty
  · exact ⟨{ events := acc.events ++ [.stage .concatStage, .stage .copyStage],
             inter := acc.inter, audio := acc.audio },
           by simp [tailPhase, allOk, h], rfl⟩
  · exact ⟨{ events := acc.events ++
               [.stage .concatStage, .stage .mixStage, .stage .combineStage],
             inter := acc.inter, audio := acc.audio },
           by simp [tailPhase, allOk, h], rfl⟩

/-- C3 (amended): in an export whose renders all reach their invocations
(every video/image clip builds a valid command), the concatenation file list
enumerates the rendered non-audio artifacts in clip-list order — the order
the clips were created — regardless of their timeline start or track. -/
theorem concat_order_is_clip_list_order (clips : List Clip)
    (hvalid : ∀ c ∈ clips, ∀ p, renderCmdOk c p = true) :
    (worker_export clips none allOk).inter = listOrderNonAudio 0 clips := by
  obtain ⟨a1, h1, h2, h3⟩ := clipPhase_allOk clips.length clips 0 ⟨[], [], []⟩ hvalid
  obtain ⟨a2, g1, g2⟩ := audioPhase_allOk clips 0 a1
  obtain ⟨a3, t1, t2⟩ := tailPhase_allOk a2
  simp [worker_export, exportBody, h1, g1, t1, finishRun, t2, g2, h2]

theorem concat_order_is_clip_list_order_witness :
    (worker_export c3clips none allOk).inter = listOrderNonAudio 0 c3clips :=
  concat_order_is_clip_list_order c3clips (by
    intro c hc p
    simp only [c3clips, List.mem_cons, List.not_mem_nil, or_false] at hc
    rcases hc with h | h <;> subst h <;>
      simp [renderCmdOk, buildVideoCmd, videoFilters])

/-- C3 (counterexample): exporting `c3State` — two fade-in video clips whose
renders succeed — concatenates the artifact of the start-5 clip before the
artifact of the start-0 clip, so the file list is not sorted by increasing
clip start time. -/
theorem concat_order_not_sorted_by_start :
    c3State.clips = c3clips ∧
    concatStarts c3State.clips = [5, 0] ∧
    ¬ (concatStarts c3State.clips).Sorted (· ≤ ·) := by
  have hclips : c3State.clips = c3clips := by rfl
  have hcs : concatStarts c3State.clips = [5, 0] := by rfl
  refine ⟨hclips, hcs, ?_⟩
  intro h
  rw [hcs] at h
  have h5 : (5 : ℚ) ≤ 0 := List.rel_of_sorted_cons h 0 (by simp)
  norm_num at h5

lemma clipPhase_events (stageOk : Stage → Bool) (cancelFrom : Option Nat) (total : Nat) :
    ∀ (l : List Clip) (i : Nat) (acc : ExpAcc),
      ∃ d m,
        (resAcc (clipPhase stageOk cancelFrom total i l acc)).events = acc.events ++ d ∧
        m ≤ l.length ∧
        progValues d = (List.range' i m).map (fun j => j * 80 / total) ∧
        (∀ j kind, EV.stage (.render j kind) ∈ d → canceledAt cancelFrom j = false) ∧
        (∀ ev ∈ d, (∃ n, ev = EV.prog n) ∨ (∃ s, ev = EV.stage s)) := by
  intro l
  induction l with
  | nil =>
    intro i acc
    exact ⟨[], 0, by simp [clipPhase, resAcc], by simp, by simp [progValues],
      by simp, by simp⟩
  | cons c rest ih =>
    intro i acc
    by_cases hcan : canceledAt cancelFrom i = true
    · exact ⟨[], 0, by simp [clipPhase, hcan, resAcc], by simp, by simp [progValues],
        by simp, by simp⟩
    · have hcan' : canceledAt cancelFrom i = false := by simpa using hcan
      by_cases ha : c.type = "audio"
      · obtain ⟨d, m, h1, h2, h3, h4, h5⟩ :=
          ih (i + 1) { acc with events := acc.events ++ [.prog (i * 80 / total)] }
        refine ⟨.prog (i * 80 / total) :: d, m + 1, ?_, ?_, ?_, ?_, ?_⟩
        · simpa [clipPhase, hcan', ha] using h1
        · simpa using Nat.succ_le_succ h2
        · simp [progValues, List.range'_succ] at h3 ⊢
          exact h3
        · intro j kind hj
          rcases List.mem_cons.mp hj with h | h
          · simp at h
          · exact h4 j kind h
        · intro ev hev
          rcases List.mem_cons.mp hev with h | h
          · exact Or.inl ⟨_, h⟩
          · exact h5 ev h
      · by_cases hv : c.type ∈ visualKinds
        · by_cases hva : renderCmdOk c ("clip_" ++ toString i ++ ".mp4") = true
          · by_cases hok : stageOk (.render i c.type) = true
            · obtain ⟨d, m, h1, h2, h3, h4, h5⟩ :=
                ih (i + 1)
                  { events := acc.events ++
                      [.prog (i * 80 / total), .stage (.render i c.type)],
                    inter := acc.inter ++ [i], audio := acc.audio }
              refine ⟨.prog (i * 80 / total) :: .stage (.render i c.type) :: d,
                m + 1, ?_, ?_, ?_, ?_, ?_⟩
              · simpa [clipPhase, hcan', ha, hv, hva, hok] using h1
              · simpa using Nat.succ_le_succ h2
              · simp [progValues, List.range'_succ] at h3 ⊢
                exact h3
              · intro j kind hj
                rcases List.mem_cons.mp hj with h | h
                · simp at h
                · rcases List.mem_cons.mp h with h' | h'
                  · have : j = i := by
                      simpa using congrArg (fun ev => match ev with
                        | EV.stage (.render a _) => a | _ => 0) h'
                    rw [this]
                    exact hcan'
                  · exact h4 j kind h'
              · intro ev hev
                rcases List.mem_cons.mp hev with h | h
                · exact Or.inl ⟨_, h⟩
                · rcases List.mem_cons.mp h with h' | h'
                  · exact Or.inr ⟨_, h'⟩
                  · exact h5 ev h'
            · refine ⟨[.prog (i * 80 / total), .stage (.render i c.type)], 1,
                ?_, ?_, ?_, ?_, ?_⟩
              · simp [clipPhase, hcan', ha, hv, hva, hok, resAcc]
              · simp
              · simp [progValues, List.range'_succ]
              · intro j kind hj
                simp only [List.mem_cons, List.not_mem_nil, or_false] at hj
                rcases hj with h | h
                · simp at h
                · have : j = i := by
                    simpa using congrArg (fun ev => match ev with
                      | EV.stage (.render a _) => a | _ => 0) h
                  rw [this]
                  exact hcan'
              · intro ev hev
                simp only [List.mem_cons, List.not_mem_nil, or_false] at hev
                rcases hev with h | h
                · exact Or.inl ⟨_, h⟩
                · exact Or.inr ⟨_, h⟩
          · refine ⟨[.prog (i * 80 / total)], 1, ?_, ?_, ?_, ?_, ?_⟩
            · simp [clipPhase, hcan', ha, hv, hva, resAcc]
            · simp
            · simp [progValues, List.range'_succ]
            · intro j kind hj
              simp only [List.mem_cons, List.not_mem_nil, or_false] at hj
              simp at hj
            · intro ev hev
              simp only [List.mem_cons, List.not_mem_nil, or_false] at hev
              exact Or.inl ⟨_, hev⟩
        · obtain ⟨d, m, h1, h2, h3, h4, h5⟩ :=
            ih (i + 1)
              { events := acc.events ++ [.prog (i * 80 / total)],
                inter := acc.inter ++ [i], audio := acc.audio }
          refine ⟨.prog (i * 80 / total) :: d, m + 1, ?_, ?_, ?_, ?_, ?_⟩
          · simpa [clipPhase, hcan', ha, hv] using h1
          · simpa using Nat.succ_le_succ h2
          · simp [progValues, List.range'_succ] at h3 ⊢
            exact h3
          · intro j kind hj
            rcases List.mem_cons.mp hj with h | h
            · simp at h
            · exact h4 j kind h
          · intro ev hev
            rcases List.mem_cons.mp hev with h | h
            · exact Or.inl ⟨_, h⟩
            · exact h5 ev h

lemma audioPhase_events (stageOk : Stage → Bool) :
    ∀ (l : List Clip) (i : Nat) (acc : ExpAcc),
      ∃ d, (resAcc (audioPhase stageOk i l acc)).events = acc.events ++ d ∧
        ∀ ev ∈ d, ∃ j, ev = EV.stage (.renderAudio j) := by
  intro l
  induction l with
  | nil => exact fun i acc => ⟨[], by simp [audioPhase, resAcc], by simp⟩
  | cons c rest ih =>
    intro i acc
    by_cases ha : c.type = "audio"
    · by_cases hok : stageOk (.renderAudio i) = true
      · obtain ⟨d, h1, h2⟩ :=
          ih (i + 1)
            { events := acc.events ++ [.stage (.renderAudio i)],
              inter := acc.inter, audio := acc.audio ++ [i] }
        refine ⟨.stage (.renderAudio i) :: d, ?_, ?_⟩
        · simpa [audioPhase, ha, hok] using h1
        · intro ev hev
          rcases List.mem_cons.mp hev with h | h
          · exact ⟨i, h⟩
          · exact h2 ev h
      · refine ⟨[.stage (.renderAudio i)], ?_, ?_⟩
        · simp [audioPhase, ha, hok, resAcc]
        · intro ev hev
          simp only [List.mem_cons, List.not_mem_nil, or_false] at hev
          exact ⟨i, hev⟩
    · obtain ⟨d, h1, h2⟩ := ih (i + 1) acc
      exact ⟨d, by simpa [audioPhase, ha] using h1, h2⟩

lemma tailPhase_events (stageOk : Stage → Bool) (acc : ExpAcc) :
    ∃ d, (resAcc (tailPhase stageOk acc)).events = acc.events ++ d ∧
      ∀ ev ∈ d, ev = EV.stage .concatStage ∨ ev = EV.stage .mixStage ∨
        ev = EV.stage .combineStage ∨ ev = EV.stage .copyStage := by
  by_cases h1 : stageOk Stage.concatStage = true
  · by_cases h2 : acc.audio.isEmpty = true
    · by_cases h3 : stageOk Stage.copyStage = true
      · exact ⟨[.stage .concatStage, .stage .copyStage],
          by simp [tailPhase, h1, h2, h3, resAcc],
          by intro ev hev; simp at hev; rcases hev with h | h <;> simp [h]⟩
      · exact ⟨[.stage .concatStage, .stage .copyStage],
          by simp [tailPhase, h1, h2, h3, resAcc],
          by intro ev hev; simp at hev; rcases hev with h | h <;> simp [h]⟩
    · by_cases h3 : stageOk Stage.mixStage = true
      · by_cases h4 : stageOk Stage.combineStage = true
        · exact ⟨[.stage .concatStage, .stage .mixStage, .stage .combineStage],
            by simp [tailPhase, h1, h2, h3, h4, resAcc],
            by intro ev hev; simp at hev; rcases hev with h | h | h <;> simp [h]⟩
        · exact ⟨[.stage .concatStage, .stage .mixStage, .stage .combineStage],
            by simp [tailPhase, h1, h2, h3, h4, resAcc],
            by intro ev hev; simp at hev; rcases hev with h | h | h <;> simp [h]⟩
      · exact ⟨[.stage .concatStage, .stage .mixStage],
          by simp [tailPhase, h1, h2, h3, resAcc],
          by intro ev hev; simp at hev; rcases hev with h | h <;> simp [h]⟩
  · exact ⟨[.stage .concatStage], by simp [tailPhase, h1, resAcc],
      by intro ev hev; simp at hev; simp [hev]⟩

lemma progValues_append (l1 l2 : List EV) :
    progValues (l1 ++ l2) = progValues l1 ++ progValues l2 :=
  List.filterMap_append l1 l2 _

lemma exportBody_events (clips : List Clip) (cancelFrom : Option Nat)
    (stageOk : Stage → Bool) :
    ∃ d m,
      (resAcc (exportBody clips cancelFrom stageOk)).events = d ∧
      m ≤ clips.length ∧
      progValues d = (List.range' 0 m).map (fun j => j * 80 / clips.length) ∧
      (∀ j kind, EV.stage (.render j kind) ∈ d → canceledAt cancelFrom j = false) ∧
      EV.finishedEv ∉ d ∧ EV.rmTemp ∉ d ∧ EV.errorEv ∉ d := by
  obtain ⟨d1, m, hc1, hc2, hc3, hc4, hc5⟩ :=
    clipPhase_events stageOk cancelFrom clips.length clips 0 ⟨[], [], []⟩
  have h5' : EV.finishedEv ∉ d1 ∧ EV.rmTemp ∉ d1 ∧ EV.errorEv ∉ d1 := by
    refine ⟨?_, ?_, ?_⟩ <;>
      · intro h
        rcases hc5 _ h with ⟨n, h'⟩ | ⟨s, h'⟩ <;> simp at h'
  cases hclip : clipPhase stageOk cancelFrom clips.length 0 clips ⟨[], [], []⟩ with
  | error a =>
    rw [hclip] at hc1
    simp only [resAcc, List.nil_append] at hc1
    refine ⟨d1, m, ?_, hc2, hc3, hc4, h5'.1, h5'.2.1, h5'.2.2⟩
    simp [exportBody, hclip, resAcc, hc1]
  | ok a =>
    rw [hclip] at hc1
    simp only [resAcc, List.nil_append] at hc1
    obtain ⟨d2, ha1, ha2⟩ := audioPhase_events stageOk clips 0 a
    have hprog2 : progValues d2 = [] := by
      refine List.filterMap_eq_nil_iff.mpr ?_
      intro ev hev
      obtain ⟨j, h⟩ := ha2 ev hev
      simp [h]
    have hnr2 : ∀ j kind, EV.stage (.render j kind) ∉ d2 := by
      intro j kind h
      obtain ⟨j', h'⟩ := ha2 _ h
      simp at h'
    have h5'' : EV.finishedEv ∉ d2 ∧ EV.rmTemp ∉ d2 ∧ EV.errorEv ∉ d2 := by
      refine ⟨?_, ?_, ?_⟩ <;>
        · intro h
          obtain ⟨j, h'⟩ := ha2 _ h
          simp at h'
    cases haud : audioPhase stageOk 0 clips a with
    | error a2 =>
      rw [haud] at ha1
      simp only [resAcc] at ha1
      refine ⟨d1 ++ d2, m, ?_, hc2, ?_, ?_, ?_, ?_, ?_⟩
      · simp [exportBody, hclip, haud, resAcc, ha1, hc1]
      · rw [progValues_append, hprog2, hc3, List.append_nil]
      · intro j kind h
        rcases List.mem_append.mp h with h | h
        · exact hc4 j kind h
        · exact absurd h (hnr2 j kind)
      · simp only [List.mem_append]
        rintro (h | h)
        · exact h5'.1 h
        · exact h5''.1 h
      · simp only [List.mem_append]
        rintro (h | h)
        · exact h5'.2.1 h
        · exact h5''.2.1 h
      · simp only [List.mem_append]
        rintro (h | h)
        · exact h5'.2.2 h
        · exact h5''.2.2 h
    | ok a2 =>
      rw [haud] at ha1
      simp only [resAcc] at ha1
      obtain ⟨d3, ht1, ht2⟩ := tailPhase_events stageOk a2
      have hprog3 : progValues d3 = [] := by
        refine List.filterMap_eq_nil_iff.mpr ?_
        intro ev hev
        rcases ht2 ev hev with h | h | h | h <;> simp [h]
      have hnr3 : ∀ j kind, EV.stage (.render j kind) ∉ d3 := by
        intro j kind h
        rcases ht2 _ h with h' | h' | h' | h' <;> simp at h'
      have h5''' : EV.finishedEv ∉ d3 ∧ EV.rmTemp ∉ d3 ∧ EV.errorEv ∉ d3 := by
        refine ⟨?_, ?_, ?_⟩ <;>
          · intro h
            rcases ht2 _ h with h' | h' | h' | h' <;> simp at h'
      refine ⟨d1 ++ (d2 ++ d3), m, ?_, hc2, ?_, ?_, ?_, ?_, ?_⟩
      · have hbody : exportBody clips cancelFrom stageOk = tailPhase stageOk a2 := by
          simp [exportBody, hclip, haud]
        rw [hbody, ht1, ha1, hc1]
        simp
      · rw [progValues_append, progValues_append, hprog2, hprog3, hc3]
        simp
      · intro j kind h
        rcases List.mem_append.mp h with h | h
        · exact hc4 j kind h
        · rcases List.mem_append.mp h with h | h
          · exact absurd h (hnr2 j kind)
          · exact absurd h (hnr3 j kind)
      · simp only [List.mem_append]
        rintro (h | h | h)
        · exact h5'.1 h
        · exact h5''.1 h
        · exact h5'''.1 h
      · simp only [List.mem_append]
        rintro (h | h | h)
        · exact h5'.2.1 h
        · exact h5''.2.1 h
        · exact h5'''.2.1 h
      · simp only [List.mem_append]
        rintro (h | h | h)
        · exact h5'.2.2 h
        · exact h5''.2.2 h
        · exact h5'''.2.2 h

lemma worker_export_shape (clips : List Clip) (cancelFrom : Option Nat)
    (stageOk : Stage → Bool) :
    ∃ m, m ≤ clips.length ∧
      progValues (worker_export clips cancelFrom stageOk).events =
        (List.range' 0 m).map (fun j => j * 80 / clips.length) ∧
      (∀ j kind,
        EV.stage (.render j kind) ∈ (worker_export clips cancelFrom stageOk).events →
          canceledAt cancelFrom j = false) ∧
      (EV.finishedEv ∈ (worker_export clips cancelFrom stageOk).events →
        canceledAt cancelFrom clips.length = false) := by
  obtain ⟨d, m, h1, h2, h3, h4, h5, h6, h7⟩ :=
    exportBody_events clips cancelFrom stageOk
  cases hb : exportBody clips cancelFrom stageOk with
  | ok a =>
    rw [hb] at h1
    simp only [resAcc] at h1
    have hev : (worker_export clips cancelFrom stageOk).events =
        (d ++ [EV.rmTemp]) ++
          (if canceledAt cancelFrom clips.length then [] else [EV.finishedEv]) := by
      simp [worker_export, hb, finishRun, h1]
    refine ⟨m, h2, ?_, ?_, ?_⟩
    · rw [hev, progValues_append, progValues_append, h3]
      by_cases hcl : canceledAt cancelFrom clips.length = true <;>
        simp [hcl, progValues]
    · intro j kind hj
      rw [hev] at hj
      rcases List.mem_append.mp hj with hj | hj
      · rcases List.mem_append.mp hj with hj | hj
        · exact h4 j kind hj
        · simp at hj
      · by_cases hcl : canceledAt cancelFrom clips.length = true <;>
          simp [hcl] at hj
    · intro hf
      rw [hev] at hf
      by_cases hcl : canceledAt cancelFrom clips.length = true
      · exfalso
        simp [hcl, List.mem_append] at hf
        exact h5 hf
      · simpa using hcl
  | error a =>
    rw [hb] at h1
    simp only [resAcc] at h1
    have hev : (worker_export clips cancelFrom stageOk).events =
        d ++ [EV.errorEv, EV.rmTemp] := by
      simp [worker_export, hb, finishRun, h1]
    refine ⟨m, h2, ?_, ?_, ?_⟩
    · rw [hev, progValues_append, h3]
      simp [progValues]
    · intro j kind hj
      rw [hev] at hj
      rcases List.mem_append.mp hj with hj | hj
      · exact h4 j kind hj
      · simp at hj
    · intro hf
      exfalso
      rw [hev] at hf
      rcases List.mem_append.mp hf with hf | hf
      · exact h5 hf
      · simp at hf

lemma clipPhase_allOk_ok (cancelFrom : Option Nat) (total : Nat) :
    ∀ (l : List Clip) (i : Nat) (acc : ExpAcc),
      (∀ c ∈ l, ∀ p, renderCmdOk c p = true) →
      ∃ acc', clipPhase allOk cancelFrom total i l acc = .ok acc' := by
  intro l
  induction l with
  | nil => exact fun i acc _ => ⟨acc, rfl⟩
  | cons c rest ih =>
    intro i acc hvalid
    have hvc : ∀ p, renderCmdOk c p = true := hvalid c (by simp)
    have hvrest : ∀ c' ∈ rest, ∀ p, renderCmdOk c' p = true :=
      fun c' hc' => hvalid c' (by simp [hc'])
    by_cases hcan : canceledAt cancelFrom i = true
    · exact ⟨acc, by simp [clipPhase, hcan]⟩
    · have hcan' : canceledAt cancelFrom i = false := by simpa using hcan
      by_cases ha : c.type = "audio"
      · obtain ⟨acc', h⟩ := ih (i + 1)
          { acc with events := acc.events ++ [.prog (i * 80 / total)] } hvrest
        exact ⟨acc', by simp [clipPhase, hcan', ha, h]⟩
      · by_cases hv : c.type ∈ visualKinds
        · obtain ⟨acc', h⟩ := ih (i + 1)
            { events := acc.events ++
                [.prog (i * 80 / total), .stage (.render i c.type)],
              inter := acc.inter ++ [i], audio := acc.audio } hvrest
          exact ⟨acc', by simp [clipPhase, hcan', ha, hv, allOk, hvc, h]⟩
        · obtain ⟨acc', h⟩ := ih (i + 1)
            { events := acc.events ++ [.prog (i * 80 / total)],
              inter := acc.inter ++ [i], audio := acc.audio } hvrest
          exact ⟨acc', by simp [clipPhase, hcan', ha, hv, h]⟩

lemma tailPhase_concat_mem (stageOk : Stage → Bool) (acc : ExpAcc) :
    EV.stage .concatStage ∈ (resAcc (tailPhase stageOk acc)).events := by
  by_cases h1 : stageOk Stage.concatStage = true
  · by_cases h2 : acc.audio.isEmpty = true
    · by_cases h3 : stageOk Stage.copyStage = true <;>
        simp [tailPhase, h1, h2, h3, resAcc]
    · by_cases h3 : stageOk Stage.mixStage = true
      · by_cases h4 : stageOk Stage.combineStage = true <;>
          simp [tailPhase, h1, h2, h3, h4, resAcc]
      · simp [tailPhase, h1, h2, h3, resAcc]
  · simp [tailPhase, h1, resAcc]

/-- C4 (amended): when the cancellation flag comes up at loop check `k`
(before all per-clip render stages have run), every later clip render is
skipped and the `finished` signal is never emitted, and the scratch directory
is still removed — but the run does not proceed directly to cleanup: the
concatenation stage is still executed (as are mix/combine or copy). -/
theorem cancellation_skips_renders_not_assembly
    (clips : List Clip) (k : Nat) (stageOk : Stage → Bool) (hk : k ≤ clips.length)
    (hvalid : ∀ c ∈ clips, ∀ p, renderCmdOk c p = true) :
    (∀ j kind,
      EV.stage (.render j kind) ∈ (worker_export clips (some k) stageOk).events →
        j < k) ∧
    EV.finishedEv ∉ (worker_export clips (some k) stageOk).events ∧
    EV.rmTemp ∈ (worker_export clips (some k) stageOk).events ∧
    EV.stage .concatStage ∈ (worker_export clips (some k) allOk).events := by
  obtain ⟨m, hm, hprog, hrender, hfin⟩ := worker_export_shape clips (some k) stageOk
  refine ⟨?_, ?_, ?_, ?_⟩
  · intro j kind hj
    have h := hrender j kind hj
    simp [canceledAt] at h
    omega
  · intro hf
    have h := hfin hf
    simp [canceledAt] at h
    omega
  · cases hbe : exportBody clips (some k) stageOk with
    | ok a => simp [worker_export, hbe, finishRun, List.mem_append]
    | error a => simp [worker_export, hbe, finishRun]
  · obtain ⟨a1, hc⟩ :=
      clipPhase_allOk_ok (some k) clips.length clips 0 ⟨[], [], []⟩ hvalid
    obtain ⟨a2, hau, _⟩ := audioPhase_allOk clips 0 a1
    have hbody : exportBody clips (some k) allOk = tailPhase allOk a2 := by
      simp [exportBody, hc, hau]
    have hmem := tailPhase_concat_mem allOk a2
    cases ht : tailPhase allOk a2 with
    | ok a3 =>
      rw [ht] at hmem
      simp only [resAcc] at hmem
      simp [worker_export, hbody, ht, finishRun, List.mem_append, hmem]
    | error a3 =>
      rw [ht] at hmem
      simp only [resAcc] at hmem
      simp [worker_export, hbody, ht, finishRun, List.mem_append, hmem]

theorem cancellation_skips_renders_not_assembly_witness :
    (∀ j kind,
      EV.stage (.render j kind) ∈ (worker_export c4clips (some 1) allOk).events →
        j < 1) ∧
    EV.finishedEv ∉ (worker_export c4clips (some 1) allOk).events ∧
    EV.rmTemp ∈ (worker_export c4clips (some 1) allOk).events ∧
    EV.stage .concatStage ∈ (worker_export c4clips (some 1) allOk).events :=
  cancellation_skips_renders_not_assembly c4clips 1 allOk (by decide) (by
    intro c hc p
    simp only [c4clips, List.mem_cons, List.not_mem_nil, or_false] at hc
    rcases hc with h | h <;> subst h <;>
      simp [renderCmdOk, buildVideoCmd, videoFilters])

/-- C4 (counterexample): cancelling after the first of two clip renders does
not short-circuit to cleanup — the full trace shows the concatenation and
copy stages still running between the cancelled loop and the cleanup (and no
`finished` signal). -/
theorem canceled_export_still_concatenates :
    (worker_export c4clips (some 1) allOk).events =
      [.prog 0, .stage (.render 0 "video"), .stage .concatStage,
       .stage .copyStage, .rmTemp] ∧
    EV.stage .concatStage ∈ (worker_export c4clips (some 1) allOk).events ∧
    EV.finishedEv ∉ (worker_export c4clips (some 1) allOk).events := by
  refine ⟨by decide, by decide, by decide⟩

/-- C6 (amended): in every export run — any clip list, any cancellation
point, any pattern of stage failures — the emitted progress sequence is
monotonically non-decreasing, and every emitted value is below 100: the value
100 is never emitted, not even on full success. -/
theorem export_progress_monotone_below_100
    (clips : List Clip) (cancelFrom : Option Nat) (stageOk : Stage → Bool) :
    (progValues (worker_export clips cancelFrom stageOk).events).Sorted (· ≤ ·) ∧
    ∀ v ∈ progValues (worker_export clips cancelFrom stageOk).events, v < 100 := by
  obtain ⟨m, hm, hprog, _, _⟩ := worker_export_shape clips cancelFrom stageOk
  rw [hprog]
  constructor
  · exact List.Pairwise.map _
      (fun a b hab => Nat.div_le_div_right (Nat.mul_le_mul_right _ hab.le))
      (List.pairwise_lt_range' 0 m 1 (by norm_num))
  · intro v hv
    rw [List.mem_map] at hv
    obtain ⟨j, hj, rfl⟩ := hv
    rw [List.mem_range'_1] at hj
    have hj' : j < clips.length := lt_of_lt_of_le (by simpa using hj.2) hm
    have hpos : 0 < clips.length := lt_of_le_of_lt (Nat.zero_le j) hj'
    rw [Nat.div_lt_iff_lt_mul hpos]
    omega

/-- C6 (counterexample): a fully successful export (it emits `finished`)
whose progress events never include 100 — the only value emitted is 0 — so
progress does not reach 100 on full success. -/
theorem success_never_emits_100 :
    EV.finishedEv ∈ (worker_export c6clips none allOk).events ∧
    progValues (worker_export c6clips none allOk).events = [0] ∧
    EV.prog 100 ∉ (worker_export c6clips none allOk).events := by
  refine ⟨by decide, by decide, by decide⟩
